import Mathlib

/-!
# Verification of the MovieDatabase persistence component

Shallow embedding of `src/movie_database.py` (class `MovieDatabase`, backed by
SQLite).  The embedding models the store as explicit state: the two tables
(`movies`, `ratings`) are lists of rows in insertion (rowid) order, together
with the AUTOINCREMENT sequences and a monotone clock standing in for
`CURRENT_TIMESTAMP`.

Faithfulness notes, checked against SQLite semantics as used by the source:

* `connect` (lines 23-26) never executes `PRAGMA foreign_keys = ON`, and the
  `sqlite3` module leaves foreign-key enforcement OFF by default.  Hence the
  `FOREIGN KEY (movie_id) REFERENCES movies (id) ON DELETE CASCADE` clause of
  `create_tables` is inert at runtime: `INSERT INTO ratings` never raises
  `IntegrityError` for a dangling `movie_id`, and `DELETE FROM movies` does not
  cascade into `ratings`.  The embedding reproduces this actual behaviour.
* The `CHECK(rating >= 0 AND rating <= 10)` column constraint IS enforced by
  SQLite regardless of that pragma; it is the only `IntegrityError` that the
  `try/except` in `add_rating` can actually catch.
* `INTEGER PRIMARY KEY AUTOINCREMENT` ids are positive, strictly increasing
  and never reused, even after deletion (the `sqlite_sequence` high-water
  mark); modelled by counters that only ever grow.
* `TEXT NOT NULL` rejects only SQL `NULL`, not the empty string; `add_movie`
  itself performs no title validation.
* SQLite `REAL` values are modelled as `ℚ` (exact on the decimal literals the
  claims use); `ROUND(x, 2)` rounds half away from zero.
* `ORDER BY` on a `TEXT` column uses the BINARY collation: codepoint-wise
  lexicographic order, i.e. the order on Lean `String`.  SQL sorting makes no
  stability promise, so any sorted permutation is a faithful model; we use
  insertion sort.
* `LIKE` matches case-insensitively on ASCII, with `%` matching any sequence
  and `_` any single character; `search_movies` wraps the term as
  `f'%{search_term}%'`.
-/

/-- A row of the `movies` table (lines 31-40 of the source).
`date_added` is the clock value at insertion. -/
structure MovieRow where
  id : ℤ
  title : String
  year : Option ℤ
  genre : Option String
  director : Option String
  date_added : ℕ
  deriving DecidableEq, Repr

/-- A row of the `ratings` table (lines 43-52 of the source). -/
structure RatingRow where
  id : ℤ
  movie_id : ℤ
  rating : ℚ
  comment : Option String
  date_rated : ℕ
  deriving DecidableEq, Repr

/-- A result row of `get_movie_ratings`: `SELECT rating, comment, date_rated`. -/
structure RatingView where
  rating : ℚ
  comment : Option String
  date_rated : ℕ
  deriving DecidableEq, Repr

/-- A result row of `get_all_movies`:
`SELECT m.id, m.title, m.year, m.genre, m.director, ROUND(AVG(r.rating),2), COUNT(r.id)`. -/
structure SummaryRow where
  id : ℤ
  title : String
  year : Option ℤ
  genre : Option String
  director : Option String
  avg_rating : Option ℚ
  rating_count : ℕ
  deriving DecidableEq, Repr

/-- A result row of `search_movies` (same as `SummaryRow` but without the count). -/
structure SearchRow where
  id : ℤ
  title : String
  year : Option ℤ
  genre : Option String
  director : Option String
  avg_rating : Option ℚ
  deriving DecidableEq, Repr

/-- The whole store: both tables in rowid (insertion) order, the two
AUTOINCREMENT sequences (next id to hand out), and the timestamp clock. -/
structure DB where
  movies : List MovieRow
  ratings : List RatingRow
  nextMovieId : ℤ
  nextRatingId : ℤ
  clock : ℕ
  deriving DecidableEq, Repr

/-- The store right after `MovieDatabase()` on a fresh file: both tables
created empty, AUTOINCREMENT sequences starting at 1. -/
def initDB : DB :=
  { movies := [], ratings := [], nextMovieId := 1, nextRatingId := 1, clock := 0 }

/-- Exact rational addition, written through `Rat.divInt` so that it is
kernel-reducible (the library `Rat.add` is `@[irreducible]`); `qadd_eq_add`
below proves it equal to `+`. -/
def qadd (a b : ℚ) : ℚ :=
  Rat.divInt (a.num * b.den + b.num * a.den) (a.den * b.den)

/-- Sum of a list of rationals; `qsum_eq_sum` below proves it equal to
`List.sum`. -/
def qsum (l : List ℚ) : ℚ :=
  l.foldr qadd 0

/-- Exact division of a rational by a natural number (the SQL `AVG`
denominator); `qdiv_eq_div` below proves it equal to `· / ·`. -/
def qdiv (a : ℚ) (n : ℕ) : ℚ :=
  Rat.divInt a.num (a.den * n)

/-- `q * 100`, kernel-reducibly; `qscale100_eq` below proves it. -/
def qscale100 (q : ℚ) : ℚ :=
  Rat.divInt (q.num * 100) q.den

/-- Round to the nearest integer, ties away from zero — the behaviour of
SQLite `ROUND` on the values reachable here.  The sign test is on the
numerator (`q < 0 ↔ q.num < 0`). -/
def roundHalfAway (q : ℚ) : ℤ :=
  if q.num < 0 then -(qadd (-q) (Rat.divInt 1 2)).floor
  else (qadd q (Rat.divInt 1 2)).floor

/-- SQLite `ROUND(x, 2)`. -/
def round2 (q : ℚ) : ℚ :=
  Rat.divInt (roundHalfAway (qscale100 q)) 100

/-- Codepoint-lexicographic comparison of character lists: the SQLite BINARY
collation used by `ORDER BY m.title` (UTF-8 byte order coincides with
codepoint order).  `titleLe_iff` below proves it is the standard linear order
on `String`. -/
def listCharLe : List Char → List Char → Bool
  | [], _ => true
  | _ :: _, [] => false
  | a :: as, b :: bs =>
      if a < b then true else if b < a then false else listCharLe as bs

/-- `ORDER BY` comparison on titles. -/
def titleLe (a b : String) : Bool :=
  listCharLe a.toList b.toList

/-- ASCII lower-casing, as applied by SQLite `LIKE` to both operands. -/
def lowerAscii (c : Char) : Char :=
  if 'A' ≤ c ∧ c ≤ 'Z' then Char.ofNat (c.toNat + 32) else c

/-- `likeStar f ts = true` iff `f` accepts some suffix of `ts`: the semantics
of a `%` wildcard whose continuation is matched by `f`. -/
def likeStar (f : List Char → Bool) : List Char → Bool
  | [] => f []
  | t :: ts => f (t :: ts) || likeStar f ts

/-- SQLite `LIKE` pattern matching: `%` matches any (possibly empty) sequence,
`_` matches any single character, anything else matches itself up to ASCII
case folding.  Structural recursion on the pattern, with `likeStar` handling
the suffix search of `%`. -/
def likeMatch : List Char → List Char → Bool
  | [], ts => ts.isEmpty
  | '%' :: ps, ts => likeStar (likeMatch ps) ts
  | '_' :: ps, ts =>
      match ts with
      | [] => false
      | _ :: ts2 => likeMatch ps ts2
  | p :: ps, ts =>
      match ts with
      | [] => false
      | t :: ts2 => (lowerAscii p == lowerAscii t) && likeMatch ps ts2

/-- `add_movie` (lines 56-64): `INSERT INTO movies (title, year, genre,
director) VALUES (?, ?, ?, ?)`, returning `lastrowid`.  No validation of any
argument happens here; `NOT NULL` does not reject the empty string. -/
def add_movie (title : String) (year : Option ℤ) (genre : Option String)
    (director : Option String) (db : DB) : ℤ × DB :=
  (db.nextMovieId,
    { db with
        movies :=
          db.movies ++ [⟨db.nextMovieId, title, year, genre, director, db.clock⟩]
        nextMovieId := db.nextMovieId + 1
        clock := db.clock + 1 })

/-- `add_rating` (lines 66-76): `INSERT INTO ratings (movie_id, rating,
comment) VALUES (?, ?, ?)` under `try/except sqlite3.IntegrityError`.  With
foreign keys unenforced (see module docstring) the only constraint that can
fire is `CHECK(rating >= 0 AND rating <= 10)`; a dangling `movie_id` is NOT
rejected.  On constraint failure nothing is written and `False` is returned. -/
def add_rating (movie_id : ℤ) (rating : ℚ) (comment : Option String)
    (db : DB) : Bool × DB :=
  if 0 ≤ rating ∧ rating ≤ 10 then
    (true,
      { db with
          ratings :=
            db.ratings ++ [⟨db.nextRatingId, movie_id, rating, comment, db.clock⟩]
          nextRatingId := db.nextRatingId + 1
          clock := db.clock + 1 })
  else
    (false, db)

/-- The rating rows of one movie: `ratings r` restricted by the join / filter
condition `r.movie_id = m.id`, in rowid order. -/
def ratingsOf (db : DB) (movie_id : ℤ) : List RatingRow :=
  db.ratings.filter (fun r => r.movie_id == movie_id)

/-- The `GROUP BY m.id` aggregate row for one movie, as produced by the
`LEFT JOIN` in `get_all_movies`: `AVG` over an empty group is SQL `NULL`
(`ROUND(NULL,2)` stays `NULL`), and `COUNT(r.id)` counts the non-null joined
rating rows. -/
def summaryOf (db : DB) (m : MovieRow) : SummaryRow :=
  let rs := ratingsOf db m.id
  { id := m.id, title := m.title, year := m.year, genre := m.genre,
    director := m.director
    avg_rating :=
      if rs.isEmpty then none
      else some (round2 (qdiv (qsum (rs.map (fun r => r.rating))) rs.length))
    rating_count := rs.length }

/-- `get_all_movies` (lines 78-94): left-join aggregate per movie,
`ORDER BY m.title` (BINARY collation = codepoint order on `String`). -/
def get_all_movies (db : DB) : List SummaryRow :=
  List.insertionSort (fun a b => titleLe a.title b.title = true)
    (db.movies.map (summaryOf db))

/-- `get_movie_by_id` (lines 96-103): `SELECT ... WHERE id = ?` with
`fetchone`, i.e. the first matching row in rowid order, `None` if absent. -/
def get_movie_by_id (movie_id : ℤ) (db : DB) : Option MovieRow :=
  db.movies.find? (fun m => m.id == movie_id)

/-- `get_movie_ratings` (lines 105-113): `SELECT rating, comment, date_rated
FROM ratings WHERE movie_id = ? ORDER BY date_rated DESC`. -/
def get_movie_ratings (movie_id : ℤ) (db : DB) : List RatingView :=
  List.insertionSort (fun a b => b.date_rated ≤ a.date_rated)
    ((ratingsOf db movie_id).map (fun r => ⟨r.rating, r.comment, r.date_rated⟩))

/-- The aggregate row for one movie as produced by `search_movies`
(no `COUNT` column). -/
def searchRowOf (db : DB) (m : MovieRow) : SearchRow :=
  let rs := ratingsOf db m.id
  { id := m.id, title := m.title, year := m.year, genre := m.genre,
    director := m.director
    avg_rating :=
      if rs.isEmpty then none
      else some (round2 (qdiv (qsum (rs.map (fun r => r.rating))) rs.length)) }

/-- `search_movies` (lines 115-131): same join/aggregate filtered by
`m.title LIKE ?` with the parameter `f'%{search_term}%'`, `ORDER BY m.title`. -/
def search_movies (search_term : String) (db : DB) : List SearchRow :=
  List.insertionSort (fun a b => titleLe a.title b.title = true)
    ((db.movies.filter
        (fun m => likeMatch ('%' :: (search_term.toList ++ ['%'])) m.title.toList)).map
      (searchRowOf db))

/-- `delete_movie` (lines 133-137): `DELETE FROM movies WHERE id = ?`, then
`rowcount > 0`.  With foreign keys unenforced the declared cascade does not
run: the `ratings` table is untouched. -/
def delete_movie (movie_id : ℤ) (db : DB) : Bool × DB :=
  (db.movies.any (fun m => m.id == movie_id),
    { db with movies := db.movies.filter (fun m => !(m.id == movie_id)) })

/-- One state-changing operation of the persistence component.  The query
operations (`get_*`, `search_movies`) are pure and leave the state unchanged,
so they induce no step. -/
inductive Step : DB → DB → Prop
  | addMovie (t : String) (y : Option ℤ) (g : Option String) (d : Option String)
      (db : DB) : Step db (add_movie t y g d db).2
  | addRating (mid : ℤ) (r : ℚ) (c : Option String) (db : DB) :
      Step db (add_rating mid r c db).2
  | deleteMovie (mid : ℤ) (db : DB) : Step db (delete_movie mid db).2

/-- A store state reachable from a fresh database by some sequence of
operations. -/
def Reachable (db : DB) : Prop :=
  Relation.ReflTransGen Step initDB db

/-- Invariant maintained by every operation: movie ids are positive and below
the AUTOINCREMENT high-water mark, and every stored rating is in `[0, 10]`. -/
def DBInv (db : DB) : Prop :=
  1 ≤ db.nextMovieId ∧
    (∀ m ∈ db.movies, 0 < m.id ∧ m.id < db.nextMovieId) ∧
    (∀ r ∈ db.ratings, 0 ≤ r.rating ∧ r.rating ≤ 10)

/-! ## Shared concrete stores used by the concrete evaluations -/

/-- The store after `add_movie "Inception" 2010 "Sci-Fi" "Christopher Nolan"`
on a fresh database (the spec's §8 scenario). -/
def inceptionDB : DB :=
  (add_movie "Inception" (some 2010) (some "Sci-Fi") (some "Christopher Nolan") initDB).2

/-- The §8 scenario store: "Inception" (id 1) with one rating 9.5
"Mind-bending". -/
def c2DB : DB :=
  (add_rating 1 (Rat.divInt 19 2) (some "Mind-bending") inceptionDB).2

/-- A store with movie 1 "Alpha" rated [8, 6, 10] and movie 2 "Beta" unrated
(the spec's §8 aggregate example). -/
def alphaBetaDB : DB :=
  (add_rating 1 10 none
    (add_rating 1 6 none
      (add_rating 1 8 none
        (add_movie "Beta" none none none
          (add_movie "Alpha" none none none initDB).2).2).2).2).2

/-! ## Bridging lemmas: the kernel-reducible arithmetic and comparisons used
by the model agree with the standard Mathlib operations. -/

theorem qadd_eq_add (a b : ℚ) : qadd a b = a + b := by
  have ha : ((a.den : ℚ)) ≠ 0 := Nat.cast_ne_zero.mpr a.den_nz
  have hb : ((b.den : ℚ)) ≠ 0 := Nat.cast_ne_zero.mpr b.den_nz
  rw [qadd, Rat.divInt_eq_div]
  push_cast
  conv_rhs => rw [← Rat.num_div_den a, ← Rat.num_div_den b]
  rw [div_add_div _ _ ha hb]
  ring_nf

theorem qsum_eq_sum (l : List ℚ) : qsum l = l.sum := by
  induction l with
  | nil => rfl
  | cons x xs ih => rw [qsum, List.foldr_cons, ← qsum, qadd_eq_add, ih, List.sum_cons]

theorem qdiv_eq_div (a : ℚ) (n : ℕ) : qdiv a n = a / n := by
  rw [qdiv, Rat.divInt_eq_div]
  push_cast
  conv_rhs => rw [← Rat.num_div_den a, div_div]

theorem qscale100_eq (q : ℚ) : qscale100 q = q * 100 := by
  rw [qscale100, Rat.divInt_eq_div]
  push_cast
  conv_rhs => rw [← Rat.num_div_den q]
  rw [div_mul_eq_mul_div]

theorem listCharLe_iff : ∀ as bs : List Char, listCharLe as bs = true ↔ ¬ bs < as
  | [], [] => iff_of_true rfl (fun h => by cases h)
  | [], _ :: _ => iff_of_true rfl (fun h => by cases h)
  | a :: as, [] =>
      iff_of_false (by simp [listCharLe]) (fun h => h List.Lex.nil)
  | a :: as, b :: bs => by
      rcases lt_trichotomy a b with hab | hab | hab
      · apply iff_of_true
        · simp [listCharLe, hab]
        · intro h
          cases h with
          | cons h3 => exact absurd hab (lt_irrefl _)
          | rel h1 => exact lt_asymm hab h1
      · subst hab
        have hirr : ¬ a < a := lt_irrefl a
        constructor
        · intro hle h
          cases h with
          | cons h3 =>
              exact ((listCharLe_iff as bs).mp
                (by simpa [listCharLe, hirr] using hle)) h3
          | rel h1 => exact hirr h1
        · intro h
          simp only [listCharLe, if_neg hirr]
          exact (listCharLe_iff as bs).mpr (fun h3 => h (List.Lex.cons h3))
      · apply iff_of_false
        · simp [listCharLe, hab, lt_asymm hab]
        · intro hn
          exact hn (List.Lex.rel hab)

/-- The model's `ORDER BY` comparison is the standard linear order on
`String`. -/
theorem titleLe_iff (a b : String) : titleLe a b = true ↔ a ≤ b := by
  rw [titleLe, String.le_iff_toList_le, ← not_lt]
  exact listCharLe_iff _ _

theorem titleLe_total (a b : String) : titleLe a b = true ∨ titleLe b a = true := by
  rcases le_total a b with h | h
  · exact Or.inl ((titleLe_iff a b).mpr h)
  · exact Or.inr ((titleLe_iff b a).mpr h)

theorem titleLe_trans {a b c : String} (h1 : titleLe a b = true)
    (h2 : titleLe b c = true) : titleLe a c = true :=
  (titleLe_iff a c).mpr (le_trans ((titleLe_iff a b).mp h1) ((titleLe_iff b c).mp h2))

instance : IsTotal SummaryRow (fun a b => titleLe a.title b.title = true) :=
  ⟨fun a b => titleLe_total a.title b.title⟩

instance : IsTrans SummaryRow (fun a b => titleLe a.title b.title = true) :=
  ⟨fun _ _ _ => titleLe_trans⟩

instance : IsTotal SearchRow (fun a b => titleLe a.title b.title = true) :=
  ⟨fun a b => titleLe_total a.title b.title⟩

instance : IsTrans SearchRow (fun a b => titleLe a.title b.title = true) :=
  ⟨fun _ _ _ => titleLe_trans⟩

instance : IsTotal RatingView (fun a b => b.date_rated ≤ a.date_rated) :=
  ⟨fun a b => le_total b.date_rated a.date_rated⟩

instance : IsTrans RatingView (fun a b => b.date_rated ≤ a.date_rated) :=
  ⟨fun _ _ _ h1 h2 => le_trans h2 h1⟩

/-! ## `LIKE` wildcard lemmas -/

theorem likeStar_of_matches {f : List Char → Bool} :
    ∀ {ts : List Char}, f ts = true → likeStar f ts = true
  | [], h => by simpa [likeStar] using h
  | t :: ts, h => by simp [likeStar, h]

theorem likeMatch_single_percent : ∀ ts : List Char, likeMatch ['%'] ts = true
  | [] => rfl
  | t :: ts => by
      have ih := likeMatch_single_percent ts
      rw [likeMatch] at ih ⊢
      simp only [likeStar]
      rw [ih]
      simp

theorem likeMatch_percent_cons {ps : List Char} {ts : List Char}
    (h : likeMatch ps ts = true) : likeMatch ('%' :: ps) ts = true := by
  rw [likeMatch]
  exact likeStar_of_matches h

/-! ## The operation invariant and id monotonicity -/

theorem dbinv_init : DBInv initDB := by
  refine ⟨le_refl 1, ?_, ?_⟩ <;> intro x hx <;> simp [initDB] at hx

theorem dbinv_step {db db' : DB} (h : Step db db') (hinv : DBInv db) : DBInv db' := by
  obtain ⟨h1, h2, h3⟩ := hinv
  cases h with
  | addMovie t y g d db =>
      refine ⟨?_, ?_, ?_⟩
      · simp only [add_movie]
        omega
      · intro m hm
        simp only [add_movie, List.mem_append, List.mem_singleton] at hm
        rcases hm with hm | hm
        · exact ⟨(h2 m hm).1, lt_trans (h2 m hm).2 (lt_add_one _)⟩
        · subst hm
          exact ⟨lt_of_lt_of_le zero_lt_one h1, lt_add_one _⟩
      · intro r hr
        simp only [add_movie] at hr
        exact h3 r hr
  | addRating mid r c db =>
      by_cases hc : 0 ≤ r ∧ r ≤ 10
      · refine ⟨?_, ?_, ?_⟩ <;> simp only [add_rating, if_pos hc]
        · exact h1
        · exact h2
        · intro rr hrr
          simp only [List.mem_append, List.mem_singleton] at hrr
          rcases hrr with hrr | hrr
          · exact h3 rr hrr
          · subst hrr
            exact hc
      · simpa only [add_rating, if_neg hc] using ⟨h1, h2, h3⟩
  | deleteMovie mid db =>
      exact ⟨h1, fun m hm => h2 m (List.mem_of_mem_filter hm), h3⟩

theorem reachable_dbinv {db : DB} (h : Reachable db) : DBInv db := by
  induction h with
  | refl => exact dbinv_init
  | tail _ hstep ih => exact dbinv_step hstep ih

theorem step_nextMovieId_le {db db' : DB} (h : Step db db') :
    db.nextMovieId ≤ db'.nextMovieId := by
  cases h with
  | addMovie t y g d db =>
      simp only [add_movie]
      omega
  | addRating mid r c db =>
      by_cases hc : 0 ≤ r ∧ r ≤ 10 <;> simp [add_rating, hc]
  | deleteMovie mid db => exact le_refl _

theorem steps_nextMovieId_le {a b : DB} (h : Relation.ReflTransGen Step a b) :
    a.nextMovieId ≤ b.nextMovieId := by
  induction h with
  | refl => exact le_refl _
  | tail _ hstep ih => exact le_trans ih (step_nextMovieId_le hstep)

theorem reachable_inceptionDB : Reachable inceptionDB :=
  Relation.ReflTransGen.single
    (Step.addMovie "Inception" (some 2010) (some "Sci-Fi") (some "Christopher Nolan") initDB)

/-! ## Claims -/

/-- C1: the claim ("AddRating on a nonexistent movie_id returns failure and
inserts no row") fails on the code as run.  `connect` never enables
`PRAGMA foreign_keys`, which SQLite leaves off by default, so the declared
foreign key is not enforced: on a fresh store with no movie 999,
`add_rating(999, 5, None)` returns `True` and inserts an orphan rating row. -/
theorem addRating_dangling_movie_succeeds :
    get_movie_by_id 999 initDB = none ∧
    (add_rating 999 5 none initDB).1 = true ∧
    (add_rating 999 5 none initDB).2.ratings.length = 1 := by
  decide

/-- C2: the claim (cascade-on-delete, no orphan ratings) fails on the code as
run.  With `PRAGMA foreign_keys` never enabled, `ON DELETE CASCADE` is inert:
deleting movie 1, which has one rating, removes the movie row but leaves the
rating row orphaned, and `get_movie_ratings 1` afterwards still returns it
instead of the empty sequence. -/
theorem deleteMovie_leaves_orphan_ratings :
    (delete_movie 1 c2DB).1 = true ∧
    (delete_movie 1 c2DB).2.movies.length = 0 ∧
    (delete_movie 1 c2DB).2.ratings.length = 1 ∧
    get_movie_ratings 1 (delete_movie 1 c2DB).2 =
      [⟨Rat.divInt 19 2, some "Mind-bending", 1⟩] := by
  decide

/-- C3: `add_rating` succeeds for every rating in `[0, 10]` (on an existing
movie id), returns `False` and leaves the store unchanged for any rating
outside `[0, 10]` (the SQLite `CHECK` fires inside the `try`), and
consequently every rating stored in a reachable state lies in `[0, 10]`. -/
theorem addRating_range_enforced (db : DB) (mid : ℤ) (r : ℚ) (c : Option String) :
    ((∃ m ∈ db.movies, m.id = mid) → 0 ≤ r → r ≤ 10 →
      (add_rating mid r c db).1 = true) ∧
    (r < 0 ∨ 10 < r → add_rating mid r c db = (false, db)) ∧
    (Reachable db → ∀ rr ∈ db.ratings, 0 ≤ rr.rating ∧ rr.rating ≤ 10) := by
  refine ⟨?_, ?_, ?_⟩
  · intro _ h0 h10
    simp [add_rating, h0, h10]
  · intro hbad
    have hc : ¬ (0 ≤ r ∧ r ≤ 10) := by
      rcases hbad with h | h
      · exact fun hc => absurd hc.1 (not_le.mpr h)
      · exact fun hc => absurd hc.2 (not_le.mpr h)
    simp [add_rating, hc]
  · intro hr rr hrr
    exact (reachable_dbinv hr).2.2 rr hrr

/-- Witness for C3 at concrete inputs: rating 9.5 on existing movie 1
succeeds; rating 11 fails leaving the store unchanged; all stored ratings of
the reachable store `inceptionDB` are in range. -/
theorem addRating_range_enforced_witness :
    (add_rating 1 (Rat.divInt 19 2) (some "Mind-bending") inceptionDB).1 = true ∧
    add_rating 1 11 none inceptionDB = (false, inceptionDB) ∧
    (∀ rr ∈ inceptionDB.ratings, 0 ≤ rr.rating ∧ rr.rating ≤ 10) :=
  ⟨(addRating_range_enforced inceptionDB 1 (Rat.divInt 19 2) (some "Mind-bending")).1
      (by decide) (by decide) (by decide),
    (addRating_range_enforced inceptionDB 1 11 none).2.1 (Or.inr (by decide)),
    (addRating_range_enforced inceptionDB 1 11 none).2.2 reachable_inceptionDB⟩

/-- C5 counterexample: the claim says `AddMovie("")` fails with a
`ValidationError` and inserts nothing; on the code it succeeds.  `add_movie`
performs no validation and SQL `NOT NULL` does not reject the empty string:
on a fresh store it returns id 1 and inserts the row. -/
theorem addMovie_empty_title_inserts :
    (add_movie "" none none none initDB).1 = 1 ∧
    (add_movie "" none none none initDB).2.movies =
      [⟨1, "", none, none, none, 0⟩] := by
  decide

/-- C5 amended: `add_movie` performs no title validation: for every title,
including the empty string, it succeeds and inserts exactly one movie row
carrying that title, returning its id (in the application only the
interaction shell's required-input loop keeps empty titles out). -/
theorem addMovie_no_title_validation (db : DB) (t : String) (y : Option ℤ)
    (g : Option String) (d : Option String) :
    (add_movie t y g d db).2.movies.length = db.movies.length + 1 ∧
    ∃ m ∈ (add_movie t y g d db).2.movies,
      m.id = (add_movie t y g d db).1 ∧ m.title = t := by
  constructor
  · simp [add_movie]
  · exact ⟨⟨db.nextMovieId, t, y, g, d, db.clock⟩, by simp [add_movie], rfl, rfl⟩

/-- C9: `delete_movie` on an id with no matching movie returns `False` and
leaves the store unchanged (no error is possible), and it returns `True`
exactly when a movie row with that id was present (and hence removed);
the ratings table is never touched by `delete_movie`. -/
theorem deleteMovie_not_found_noop (db : DB) (mid : ℤ) :
    ((∀ m ∈ db.movies, m.id ≠ mid) → delete_movie mid db = (false, db)) ∧
    ((delete_movie mid db).1 = true ↔ ∃ m ∈ db.movies, m.id = mid) ∧
    (delete_movie mid db).2.ratings = db.ratings := by
  refine ⟨?_, ?_, rfl⟩
  · intro h
    have hfilter : db.movies.filter (fun m => !(m.id == mid)) = db.movies := by
      apply List.filter_eq_self.mpr
      intro m hm
      simpa using h m hm
    have hany : db.movies.any (fun m => m.id == mid) = false := by
      simp only [List.any_eq_false]
      intro m hm
      simpa using h m hm
    simp [delete_movie, hfilter, hany]
  · simp [delete_movie, List.any_eq_true]

/-- Witness for C9: `DeleteMovie(999)` on the empty store returns `false` and
changes nothing. -/
theorem deleteMovie_not_found_noop_witness :
    delete_movie 999 initDB = (false, initDB) :=
  (deleteMovie_not_found_noop initDB 999).1 (by decide)

/-- C4: every movie appears in `get_all_movies` with `rating_count` the number
of its rating rows and `avg_rating` the 2-dp-rounded arithmetic mean of its
ratings (`none` — not 0 and not NaN — when it has no ratings). -/
theorem getAllMovies_avg_count (db : DB) (m : MovieRow) (hm : m ∈ db.movies) :
    ∃ row ∈ get_all_movies db,
      row.id = m.id ∧ row.title = m.title ∧ row.year = m.year ∧
      row.genre = m.genre ∧ row.director = m.director ∧
      row.rating_count = (ratingsOf db m.id).length ∧
      row.avg_rating =
        (if (ratingsOf db m.id).length = 0 then none
         else some (round2
            (((ratingsOf db m.id).map (fun r => r.rating)).sum /
              ((ratingsOf db m.id).length : ℚ)))) := by
  refine ⟨summaryOf db m, ?_, rfl, rfl, rfl, rfl, rfl, rfl, ?_⟩
  · rw [get_all_movies]
    exact (List.mem_insertionSort _).mpr (List.mem_map_of_mem _ hm)
  · by_cases hempty : ratingsOf db m.id = []
    · simp [summaryOf, hempty]
    · simp [summaryOf, hempty, List.length_eq_zero, qdiv_eq_div, qsum_eq_sum]

/-- Witness for C4 on the §8 example: "Alpha" (id 1) rated [8, 6, 10] reports
avg 8.0 with count 3; "Beta" (id 2) with no ratings reports absent avg and
count 0. -/
theorem getAllMovies_avg_count_witness :
    (get_all_movies alphaBetaDB).map
        (fun row => (row.id, row.title, row.avg_rating, row.rating_count)) =
      [(1, "Alpha", some 8, 3), (2, "Beta", none, 0)] ∧
    (∃ row ∈ get_all_movies alphaBetaDB, row.id = 1 ∧ row.rating_count = 3) ∧
    (∃ row ∈ get_all_movies alphaBetaDB,
      row.id = 2 ∧ row.avg_rating = none ∧ row.rating_count = 0) := by
  refine ⟨by decide, ?_, ?_⟩
  · obtain ⟨row, hmem, h1, _, _, _, _, hcount, _⟩ :=
      getAllMovies_avg_count alphaBetaDB ⟨1, "Alpha", none, none, none, 0⟩ (by decide)
    exact ⟨row, hmem, h1, hcount.trans (by decide)⟩
  · obtain ⟨row, hmem, h1, _, _, _, _, hcount, havg⟩ :=
      getAllMovies_avg_count alphaBetaDB ⟨2, "Beta", none, none, none, 1⟩ (by decide)
    exact ⟨row, hmem, h1, havg.trans (by decide), hcount.trans (by decide)⟩

/-- C6: on any reachable store, `add_movie` returns a fresh positive id,
strictly greater than the id of every movie currently in the store;
`get_movie_by_id` on that id immediately afterwards returns exactly the
inserted record (title, year, genre, director as passed in); and after any
further sequence of operations — deletions included — every later `add_movie`
returns a strictly greater id, so ids are never reused. -/
theorem addMovie_getById_roundtrip_fresh (db : DB) (h : Reachable db)
    (t : String) (y : Option ℤ) (g : Option String) (d : Option String) :
    get_movie_by_id (add_movie t y g d db).1 (add_movie t y g d db).2 =
      some ⟨(add_movie t y g d db).1, t, y, g, d, db.clock⟩ ∧
    0 < (add_movie t y g d db).1 ∧
    (∀ m ∈ db.movies, m.id < (add_movie t y g d db).1) ∧
    (∀ db2, Relation.ReflTransGen Step (add_movie t y g d db).2 db2 →
      ∀ t2 y2 g2 d2,
        (add_movie t y g d db).1 < (add_movie t2 y2 g2 d2 db2).1) := by
  obtain ⟨h1, h2, h3⟩ := reachable_dbinv h
  refine ⟨?_, lt_of_lt_of_le zero_lt_one h1, fun m hm => (h2 m hm).2, ?_⟩
  · have hnone : db.movies.find? (fun m => m.id == db.nextMovieId) = none := by
      apply List.find?_eq_none.mpr
      intro m hm
      simpa using ne_of_lt (h2 m hm).2
    simp [add_movie, get_movie_by_id, List.find?_append, hnone]
  · intro db2 hsteps t2 y2 g2 d2
    have hle := steps_nextMovieId_le hsteps
    simp only [add_movie] at hle ⊢
    omega

/-- Witness for C6: adding "Inception" to the (reachable) fresh store yields
id 1 and `get_movie_by_id 1` returns exactly the inserted record. -/
theorem addMovie_getById_roundtrip_fresh_witness :
    get_movie_by_id 1 inceptionDB =
      some ⟨1, "Inception", some 2010, some "Sci-Fi", some "Christopher Nolan", 0⟩ ∧
    (0 : ℤ) < 1 :=
  ⟨(addMovie_getById_roundtrip_fresh initDB Relation.ReflTransGen.refl
      "Inception" (some 2010) (some "Sci-Fi") (some "Christopher Nolan")).1,
    (addMovie_getById_roundtrip_fresh initDB Relation.ReflTransGen.refl
      "Inception" (some 2010) (some "Sci-Fi") (some "Christopher Nolan")).2.1⟩

/-- C7: on every store the output of `get_all_movies` is sorted by title in
ascending lexicographic order, and so is the output of `search_movies` for
every search term. -/
theorem results_sorted_by_title (db : DB) (term : String) :
    List.Sorted (fun a b : SummaryRow => a.title ≤ b.title) (get_all_movies db) ∧
    List.Sorted (fun a b : SearchRow => a.title ≤ b.title) (search_movies term db) := by
  constructor
  · exact List.Pairwise.imp (fun hab => (titleLe_iff _ _).mp hab)
      (List.sorted_insertionSort _ _)
  · exact List.Pairwise.imp (fun hab => (titleLe_iff _ _).mp hab)
      (List.sorted_insertionSort _ _)

/-- C8 counterexample: "empty when the movie does not exist" fails on the
code.  On the reachable store obtained by `add_rating(999, 7, None)` on a
fresh database (which succeeds because the foreign key is unenforced), movie
999 does not exist, yet `get_movie_ratings 999` returns that orphan row. -/
theorem getMovieRatings_nonexistent_movie_nonempty :
    Reachable (add_rating 999 7 none initDB).2 ∧
    get_movie_by_id 999 (add_rating 999 7 none initDB).2 = none ∧
    get_movie_ratings 999 (add_rating 999 7 none initDB).2 = [⟨7, none, 0⟩] :=
  ⟨Relation.ReflTransGen.single (Step.addRating 999 7 none initDB),
    by decide, by decide⟩

/-- C8 amended: `get_movie_ratings` returns exactly the rating rows whose
`movie_id` equals the argument, as (rating, comment, date_rated) records
ordered by `date_rated` descending, and returns the empty sequence — never an
error — exactly when no rating row carries that `movie_id` (because the
foreign key is unenforced, a nonexistent movie may own orphan rows, which are
returned). -/
theorem getMovieRatings_ordered_desc (db : DB) (mid : ℤ) :
    List.Sorted (fun a b : RatingView => b.date_rated ≤ a.date_rated)
      (get_movie_ratings mid db) ∧
    (get_movie_ratings mid db).Perm
      ((db.ratings.filter (fun r => r.movie_id == mid)).map
        (fun r => ⟨r.rating, r.comment, r.date_rated⟩)) ∧
    ((∀ r ∈ db.ratings, r.movie_id ≠ mid) → get_movie_ratings mid db = []) := by
  refine ⟨List.sorted_insertionSort _ _, List.perm_insertionSort _ _, ?_⟩
  intro h
  have hnil : db.ratings.filter (fun r => r.movie_id == mid) = [] := by
    apply List.filter_eq_nil_iff.mpr
    intro r hr
    simpa using h r hr
  rw [get_movie_ratings, ratingsOf, hnil]
  rfl

/-- Witness for C8 (amended): on the empty store no rating row carries
movie_id 7, and `get_movie_ratings 7` is empty. -/
theorem getMovieRatings_ordered_desc_witness :
    get_movie_ratings 7 initDB = [] :=
  (getMovieRatings_ordered_desc initDB 7).2.2 (by decide)

/-- C10: `search_movies` builds the `LIKE` pattern `f'%{term}%'`, so `%` and
`_` in the term are wildcards: searching "%" (pattern `%%%`) or "" (pattern
`%%`) matches every title, and every movie of the store — whatever its
title — appears in the result. -/
theorem searchMovies_wildcard_semantics (db : DB) :
    (search_movies "%" db).length = db.movies.length ∧
    (search_movies "" db).length = db.movies.length ∧
    ∀ m ∈ db.movies, ∃ row ∈ search_movies "%" db,
      row.id = m.id ∧ row.title = m.title := by
  have hp3 : ∀ ts : List Char,
      likeMatch ('%' :: ("%".toList ++ ['%'])) ts = true := by
    intro ts
    have hpat : ('%' :: ("%".toList ++ ['%'])) = ['%', '%', '%'] := rfl
    rw [hpat]
    exact likeMatch_percent_cons (likeMatch_percent_cons (likeMatch_single_percent ts))
  have hp2 : ∀ ts : List Char,
      likeMatch ('%' :: ("".toList ++ ['%'])) ts = true := by
    intro ts
    have hpat : ('%' :: ("".toList ++ ['%'])) = ['%', '%'] := rfl
    rw [hpat]
    exact likeMatch_percent_cons (likeMatch_single_percent ts)
  have hfilter3 : db.movies.filter
      (fun m => likeMatch ('%' :: ("%".toList ++ ['%'])) m.title.toList) = db.movies :=
    List.filter_eq_self.mpr (fun m _ => hp3 m.title.toList)
  have hfilter2 : db.movies.filter
      (fun m => likeMatch ('%' :: ("".toList ++ ['%'])) m.title.toList) = db.movies :=
    List.filter_eq_self.mpr (fun m _ => hp2 m.title.toList)
  refine ⟨?_, ?_, ?_⟩
  · rw [search_movies, hfilter3]
    simp
  · rw [search_movies, hfilter2]
    simp
  · intro m hm
    refine ⟨searchRowOf db m, ?_, rfl, rfl⟩
    rw [search_movies, hfilter3]
    exact (List.mem_insertionSort _).mpr (List.mem_map_of_mem _ hm)

/-- Witness for C10: on the store holding only "Inception" (whose title
contains no '%'), `search_movies "%"` still returns it. -/
theorem searchMovies_wildcard_semantics_witness :
    (search_movies "%" inceptionDB).length = 1 ∧
    ∃ row ∈ search_movies "%" inceptionDB,
      row.id = 1 ∧ row.title = "Inception" := by
  constructor
  · exact ((searchMovies_wildcard_semantics inceptionDB).1).trans (by decide)
  · obtain ⟨row, hmem, h1, h2⟩ := (searchMovies_wildcard_semantics inceptionDB).2.2
      ⟨1, "Inception", some 2010, some "Sci-Fi", some "Christopher Nolan", 0⟩ (by decide)
    exact ⟨row, hmem, h1, h2⟩
